import Mathlib

/-!
# Verification of the `slog-async` offload pipeline (`src/lib.rs`)

Shallow embedding of the crate's data model and operations:

* `ToSendSerializer` and its `emit_*` methods (src/lib.rs 44-139): the
  Materializer that converts borrowed key-value data into owned form.
* `AsyncError` and the `From` conversions (src/lib.rs 143-172).
* `AsyncCoreBuilder` / `AsyncCore` (src/lib.rs 176-339): the Core Channel –
  bounded queue, per-thread cached sender handles, worker lifecycle.
* `Async` (src/lib.rs 342-457): the Offload Facade with the drop counter.

The embedding is sequential: one producer thread is modelled explicitly
(its thread-local sender cache is the `tlSender` field), and the worker
makes no progress while producers run, so the queue is a plain list.
Sender handles are given numeric identities (`canonicalId`, fresh ids for
clones) so that "which handle a message was sent on" is observable; every
accepted message is also recorded in `sendLog` together with the id of the
handle that carried it.
-/

namespace SlogAsync

/-- Keys of key-value pairs (`slog::Key`). -/
abbrev Key := String

/-- Owned values stored by `ToSendSerializer` after materialization.
Numeric payloads are carried as `Nat`/`Int`; `f32`/`f64` payloads are
carried as their bit patterns (a by-value copy is bit-identical).
`vNone` embeds the stored `Option<()> = None` of `emit_none`; `vUnit`
embeds the `()` of `emit_unit`; `vStr` embeds an owned `String`. -/
inductive OwnedVal where
  | vBool (b : Bool)
  | vUnit
  | vNone
  | vChar (c : Char)
  | vU8 (n : Nat)
  | vI8 (n : Int)
  | vU16 (n : Nat)
  | vI16 (n : Int)
  | vU32 (n : Nat)
  | vI32 (n : Int)
  | vU64 (n : Nat)
  | vI64 (n : Int)
  | vF32 (bits : Nat)
  | vF64 (bits : Nat)
  | vUsize (n : Nat)
  | vIsize (n : Int)
  | vStr (s : String)
deriving DecidableEq, Repr

/-- `true` exactly on owned text buffers (`vStr`); used to state that the
absence marker is not coerced to a string. -/
def OwnedVal.isText : OwnedVal → Bool
  | .vStr _ => true
  | _ => false

/-- The borrowed input handed to one `emit_*` call of the serializer.
`iStr s` is a borrowed `&str` with contents `s`; `iArguments s` is a
`fmt::Arguments` formatting thunk whose rendering is `s` (rendering a
thunk is `fmt::format`, modelled as producing that string). -/
inductive SerInput where
  | iBool (b : Bool)
  | iUnit
  | iNone
  | iChar (c : Char)
  | iU8 (n : Nat)
  | iI8 (n : Int)
  | iU16 (n : Nat)
  | iI16 (n : Int)
  | iU32 (n : Nat)
  | iI32 (n : Int)
  | iU64 (n : Nat)
  | iI64 (n : Int)
  | iF32 (bits : Nat)
  | iF64 (bits : Nat)
  | iUsize (n : Nat)
  | iIsize (n : Int)
  | iStr (s : String)
  | iArguments (s : String)
deriving DecidableEq, Repr

/-- `slog::Error`, the error side of `slog::Result`. The serializer never
produces it; the constructor only exists so the result type is faithful. -/
inductive SlogError where
  | other
deriving DecidableEq, Repr

/-- `slog::Result = Result<(), slog::Error>`. -/
abbrev SlogResult := Except SlogError Unit

/-- `ToSendSerializer` (src/lib.rs 45-47): accumulates the owned key-value
chain. The source stores nested boxed pairs `(SingleKV(key, val), kv)`,
newest outermost; the chain is embedded as a list with the newest pair at
the head. -/
structure ToSendSerializer where
  kv : List (Key × OwnedVal)
deriving DecidableEq, Repr

/-- `ToSendSerializer::new` (src/lib.rs 50-52): starts from the empty
chain `Box::new(())`. -/
def ToSendSerializer.new : ToSendSerializer := ⟨[]⟩

/-- `ToSendSerializer::finish` (src/lib.rs 54-56): returns the chain. -/
def ToSendSerializer.finish (s : ToSendSerializer) : List (Key × OwnedVal) :=
  s.kv

/-- `emit_bool` (src/lib.rs 60-63): prepend the pair, return `Ok(())`. -/
def ToSendSerializer.emit_bool (s : ToSendSerializer) (key : Key) (val : Bool) :
    ToSendSerializer × SlogResult :=
  (⟨(key, .vBool val) :: s.kv⟩, .ok ())

/-- `emit_unit` (src/lib.rs 64-68). -/
def ToSendSerializer.emit_unit (s : ToSendSerializer) (key : Key) :
    ToSendSerializer × SlogResult :=
  (⟨(key, .vUnit) :: s.kv⟩, .ok ())

/-- `emit_none` (src/lib.rs 69-73): stores `Option<()> = None`, a distinct
owned absence marker. -/
def ToSendSerializer.emit_none (s : ToSendSerializer) (key : Key) :
    ToSendSerializer × SlogResult :=
  (⟨(key, .vNone) :: s.kv⟩, .ok ())

/-- `emit_char` (src/lib.rs 74-77). -/
def ToSendSerializer.emit_char (s : ToSendSerializer) (key : Key) (val : Char) :
    ToSendSerializer × SlogResult :=
  (⟨(key, .vChar val) :: s.kv⟩, .ok ())

/-- `emit_u8` (src/lib.rs 78-81). -/
def ToSendSerializer.emit_u8 (s : ToSendSerializer) (key : Key) (val : Nat) :
    ToSendSerializer × SlogResult :=
  (⟨(key, .vU8 val) :: s.kv⟩, .ok ())

/-- `emit_i8` (src/lib.rs 82-85). -/
def ToSendSerializer.emit_i8 (s : ToSendSerializer) (key : Key) (val : Int) :
    ToSendSerializer × SlogResult :=
  (⟨(key, .vI8 val) :: s.kv⟩, .ok ())

/-- `emit_u16` (src/lib.rs 86-89). -/
def ToSendSerializer.emit_u16 (s : ToSendSerializer) (key : Key) (val : Nat) :
    ToSendSerializer × SlogResult :=
  (⟨(key, .vU16 val) :: s.kv⟩, .ok ())

/-- `emit_i16` (src/lib.rs 90-93). -/
def ToSendSerializer.emit_i16 (s : ToSendSerializer) (key : Key) (val : Int) :
    ToSendSerializer × SlogResult :=
  (⟨(key, .vI16 val) :: s.kv⟩, .ok ())

/-- `emit_u32` (src/lib.rs 94-97). -/
def ToSendSerializer.emit_u32 (s : ToSendSerializer) (key : Key) (val : Nat) :
    ToSendSerializer × SlogResult :=
  (⟨(key, .vU32 val) :: s.kv⟩, .ok ())

/-- `emit_i32` (src/lib.rs 98-101). -/
def ToSendSerializer.emit_i32 (s : ToSendSerializer) (key : Key) (val : Int) :
    ToSendSerializer × SlogResult :=
  (⟨(key, .vI32 val) :: s.kv⟩, .ok ())

/-- `emit_f32` (src/lib.rs 102-105): the float is copied by value (bit
pattern carried unchanged). -/
def ToSendSerializer.emit_f32 (s : ToSendSerializer) (key : Key) (bits : Nat) :
    ToSendSerializer × SlogResult :=
  (⟨(key, .vF32 bits) :: s.kv⟩, .ok ())

/-- `emit_u64` (src/lib.rs 106-109). -/
def ToSendSerializer.emit_u64 (s : ToSendSerializer) (key : Key) (val : Nat) :
    ToSendSerializer × SlogResult :=
  (⟨(key, .vU64 val) :: s.kv⟩, .ok ())

/-- `emit_i64` (src/lib.rs 110-113). -/
def ToSendSerializer.emit_i64 (s : ToSendSerializer) (key : Key) (val : Int) :
    ToSendSerializer × SlogResult :=
  (⟨(key, .vI64 val) :: s.kv⟩, .ok ())

/-- `emit_f64` (src/lib.rs 114-117). -/
def ToSendSerializer.emit_f64 (s : ToSendSerializer) (key : Key) (bits : Nat) :
    ToSendSerializer × SlogResult :=
  (⟨(key, .vF64 bits) :: s.kv⟩, .ok ())

/-- `emit_usize` (src/lib.rs 118-121). -/
def ToSendSerializer.emit_usize (s : ToSendSerializer) (key : Key) (val : Nat) :
    ToSendSerializer × SlogResult :=
  (⟨(key, .vUsize val) :: s.kv⟩, .ok ())

/-- `emit_isize` (src/lib.rs 122-125). -/
def ToSendSerializer.emit_isize (s : ToSendSerializer) (key : Key) (val : Int) :
    ToSendSerializer × SlogResult :=
  (⟨(key, .vIsize val) :: s.kv⟩, .ok ())

/-- `emit_str` (src/lib.rs 126-130): `val.to_owned()` — the borrowed text
is copied into an owned `String` with the same contents. -/
def ToSendSerializer.emit_str (s : ToSendSerializer) (key : Key) (val : String) :
    ToSendSerializer × SlogResult :=
  (⟨(key, .vStr val) :: s.kv⟩, .ok ())

/-- `emit_arguments` (src/lib.rs 131-138): `fmt::format(*val)` — the
formatting thunk is rendered to an owned `String` at emit time. -/
def ToSendSerializer.emit_arguments (s : ToSendSerializer) (key : Key) (val : String) :
    ToSendSerializer × SlogResult :=
  (⟨(key, .vStr val) :: s.kv⟩, .ok ())

/-- Dispatch of one serialized key-value pair to the `emit_*` method the
`Serializer` trait selects for its type (the call the `KV::serialize`
implementation makes for each attached pair). -/
def ToSendSerializer.emitInput (s : ToSendSerializer) (key : Key) :
    SerInput → ToSendSerializer × SlogResult
  | .iBool b => s.emit_bool key b
  | .iUnit => s.emit_unit key
  | .iNone => s.emit_none key
  | .iChar c => s.emit_char key c
  | .iU8 n => s.emit_u8 key n
  | .iI8 n => s.emit_i8 key n
  | .iU16 n => s.emit_u16 key n
  | .iI16 n => s.emit_i16 key n
  | .iU32 n => s.emit_u32 key n
  | .iI32 n => s.emit_i32 key n
  | .iU64 n => s.emit_u64 key n
  | .iI64 n => s.emit_i64 key n
  | .iF32 b => s.emit_f32 key b
  | .iF64 b => s.emit_f64 key b
  | .iUsize n => s.emit_usize key n
  | .iIsize n => s.emit_isize key n
  | .iStr t => s.emit_str key t
  | .iArguments t => s.emit_arguments key t

/-- The owned value each input materializes to (read off the `emit_*`
bodies; for `iStr`/`iArguments` this is the owned rendered text). -/
def ownValue : SerInput → OwnedVal
  | .iBool b => .vBool b
  | .iUnit => .vUnit
  | .iNone => .vNone
  | .iChar c => .vChar c
  | .iU8 n => .vU8 n
  | .iI8 n => .vI8 n
  | .iU16 n => .vU16 n
  | .iI16 n => .vI16 n
  | .iU32 n => .vU32 n
  | .iI32 n => .vI32 n
  | .iU64 n => .vU64 n
  | .iI64 n => .vI64 n
  | .iF32 b => .vF32 b
  | .iF64 b => .vF64 b
  | .iUsize n => .vUsize n
  | .iIsize n => .vIsize n
  | .iStr t => .vStr t
  | .iArguments t => .vStr t

/-- Serializing a whole event's call-site pairs in emission order:
`record.kv().serialize(record, &mut ser)` calls `emitInput` once per pair
(src/lib.rs 290-293). -/
def serializePairs (pairs : List (Key × SerInput)) : ToSendSerializer :=
  pairs.foldl (fun s p => (s.emitInput p.1 p.2).1) ToSendSerializer.new

/-- `slog::Level`. -/
inductive Level where
  | critical
  | error
  | warning
  | info
  | debug
  | trace
deriving DecidableEq, Repr

/-- `slog::RecordLocation`: owned source-location metadata. -/
structure RecordLocation where
  file : String
  line : Nat
deriving DecidableEq, Repr

/-- The shared, reference-counted logger key-value chain
(`slog::OwnedKVList`); cloning it is a cheap handle copy, so a clone is
the value itself. -/
abbrev OwnedKVList := List (Key × OwnedVal)

/-- A transient `slog::Record` as consumed by the drains: formatted
message (the source renders `record.msg()` with `fmt::format`, so the
rendering is carried directly), level, location, tag, and the call-site
key-value pairs the record's serializer will emit, in emission order. -/
structure Record where
  msg : String
  level : Level
  location : RecordLocation
  tag : String
  kvPairs : List (Key × SerInput)
deriving DecidableEq, Repr

/-- `AsyncRecord` (src/lib.rs 306-313): the fully owned snapshot sent to
the worker. -/
structure AsyncRecord where
  msg : String
  level : Level
  location : RecordLocation
  tag : String
  logger_values : OwnedKVList
  kv : List (Key × OwnedVal)
deriving DecidableEq, Repr

/-- `AsyncMsg` (src/lib.rs 315-318). -/
inductive AsyncMsg where
  | record (r : AsyncRecord)
  | finish
deriving DecidableEq, Repr

/-- `AsyncError` (src/lib.rs 145-151). The boxed error payload of `Fatal`
is carried as its description string. -/
inductive AsyncError where
  | Full
  | Fatal (description : String)
deriving DecidableEq, Repr

/-- `mpsc::TrySendError`: `Full` (no free capacity) or `Disconnected`
(the receiving side of the queue is gone). -/
inductive TrySendError where
  | full
  | disconnected
deriving DecidableEq, Repr

/-- `std::sync::PoisonError`: the mutex was poisoned by a panic. -/
inductive PoisonError where
  | poisoned
deriving DecidableEq, Repr

/-- `impl From<mpsc::TrySendError<T>> for AsyncError` (src/lib.rs
153-157): the conversion ignores the variant (`fn from(_)`) and always
produces `AsyncError::Full`. -/
def AsyncError.fromTrySendError (_ : TrySendError) : AsyncError :=
  AsyncError.Full

/-- `impl From<std::sync::PoisonError<T>> for AsyncError` (src/lib.rs
165-170): a poisoned lock becomes `Fatal` with a `BrokenPipe` io error
wrapping the poison description. -/
def AsyncError.fromPoisonError (_ : PoisonError) : AsyncError :=
  AsyncError.Fatal "poisoned lock: another task failed inside"

/-- The bounded queue of `mpsc::sync_channel` as a producer sees it while
the worker makes no progress: fixed capacity, FIFO buffer (front =
oldest), and whether the receiving side (the worker) is gone. -/
structure ChanState where
  capacity : Nat
  queue : List AsyncMsg
  disconnected : Bool
deriving DecidableEq, Repr

/-- `SyncSender::try_send`: fails with `Disconnected` when the receiver
is gone, with `Full` when the buffer has no free capacity, and otherwise
appends the message to the buffer. Never blocks. -/
def ChanState.try_send (ch : ChanState) (m : AsyncMsg) : Except TrySendError ChanState :=
  if ch.disconnected then .error .disconnected
  else if ch.capacity ≤ ch.queue.length then .error .full
  else .ok { ch with queue := ch.queue ++ [m] }

/-- `AsyncCore` (src/lib.rs 243-247) together with the calling producer
thread's view. `canonicalId` is the identity of the handle inside the
`ref_sender` mutex; `refPoisoned` models that mutex being poisoned;
`tlSender` is this thread's `thread_local` cached clone (by identity);
`nextId` supplies fresh identities for clones; `join` is the
`Mutex<Option<JoinHandle>>` (`joinPoisoned` its poison state);
`workerSpawned`/`workerJoined` record the worker thread's lifecycle;
`sendLog` records every message accepted by the queue together with the
identity of the sender handle that carried it. -/
structure AsyncCore where
  chan : ChanState
  canonicalId : Nat
  refPoisoned : Bool
  tlSender : Option Nat
  nextId : Nat
  joinPoisoned : Bool
  joinHandle : Option Unit
  workerSpawned : Bool
  workerJoined : Bool
  sendLog : List (Nat × AsyncMsg)
deriving DecidableEq, Repr

/-- `AsyncCoreBuilder` (src/lib.rs 178-183). -/
structure AsyncCoreBuilder where
  chan_size : Nat
deriving DecidableEq, Repr

/-- `AsyncCoreBuilder::new` (src/lib.rs 188-193): default channel size
128. -/
def AsyncCoreBuilder.new : AsyncCoreBuilder :=
  { chan_size := 128 }

/-- `AsyncCoreBuilder::chan_size` (src/lib.rs 197-200): overwrites the
channel size; the requested value is not validated. -/
def AsyncCoreBuilder.set_chan_size (b : AsyncCoreBuilder) (s : Nat) : AsyncCoreBuilder :=
  { b with chan_size := s }

/-- `AsyncCoreBuilder::build` (src/lib.rs 203-230): creates the
`sync_channel` with the requested capacity (any `usize` is accepted —
`mpsc::sync_channel(0)` is a legal rendezvous channel), spawns the worker
thread immediately, and stores the canonical sender, the empty
thread-local cache and the worker's join handle. -/
def AsyncCoreBuilder.build (b : AsyncCoreBuilder) : AsyncCore :=
  { chan := { capacity := b.chan_size, queue := [], disconnected := false },
    canonicalId := 0,
    refPoisoned := false,
    tlSender := none,
    nextId := 1,
    joinPoisoned := false,
    joinHandle := some (),
    workerSpawned := true,
    workerJoined := false,
    sendLog := [] }

/-- `AsyncCore::get_sender` (src/lib.rs 264-269): return this thread's
cached sender if present; otherwise lock `ref_sender` (propagating a
poison error), clone the canonical handle — the clone is a new handle
object, so it receives a fresh identity — and cache it. -/
def AsyncCore.get_sender (c : AsyncCore) : Except PoisonError (Nat × AsyncCore) :=
  match c.tlSender with
  | some id => .ok (id, c)
  | none =>
      if c.refPoisoned then .error .poisoned
      else .ok (c.nextId, { c with tlSender := some c.nextId, nextId := c.nextId + 1 })

/-- `AsyncCore::send` (src/lib.rs 272-278): obtain the thread's sender
(`?` turns a poison error into `Fatal`), `try_send` the record (`?` turns
either `TrySendError` variant into `Full`). -/
def AsyncCore.send (c : AsyncCore) (r : AsyncRecord) : Except AsyncError Unit × AsyncCore :=
  match c.get_sender with
  | .error e => (.error (AsyncError.fromPoisonError e), c)
  | .ok (sid, c1) =>
      match c1.chan.try_send (.record r) with
      | .error e => (.error (AsyncError.fromTrySendError e), c1)
      | .ok ch2 =>
          (.ok (), { c1 with chan := ch2, sendLog := c1.sendLog ++ [(sid, .record r)] })

/-- Materialization performed by `impl Drain for AsyncCore::log`
(src/lib.rs 285-303): serialize the record's call-site pairs through
`ToSendSerializer` (which cannot fail — the `.expect` never fires),
format the message, copy level/location/tag, clone the logger values. -/
def Record.toAsyncRecord (r : Record) (logger_values : OwnedKVList) : AsyncRecord :=
  { msg := r.msg,
    level := r.level,
    location := r.location,
    tag := r.tag,
    logger_values := logger_values,
    kv := (serializePairs r.kvPairs).finish }

/-- `impl Drain for AsyncCore`, `log` (src/lib.rs 285-304): materialize
then `send`. -/
def AsyncCore.log (c : AsyncCore) (r : Record) (logger_values : OwnedKVList) :
    Except AsyncError Unit × AsyncCore :=
  c.send (r.toAsyncRecord logger_values)

/-- `SyncSender::send` on handle `sid` (blocking variant, used only for
`Finish` in `Drop`): when the receiver is gone it fails (the source
discards that error with `let _ =`); otherwise it blocks until the queue
accepts the message — modelled as the message being appended
unconditionally, since the worker eventually drains the queue. -/
def AsyncCore.sendBlocking (c : AsyncCore) (sid : Nat) (m : AsyncMsg) : AsyncCore :=
  if c.chan.disconnected then c
  else
    { c with
      chan := { c.chan with queue := c.chan.queue ++ [m] },
      sendLog := c.sendLog ++ [(sid, m)] }

/-- `impl Drop for AsyncCore` (src/lib.rs 320-339): send `Finish` on the
sender returned by `get_sender` with the blocking `send` (a poison error
aborts the closure, the error being ignored), then lock `join`, take the
join handle and join the worker thread. The `unwrap` on an already-taken
join handle would panic; that branch (unreachable for a core dropped
once) leaves the state unchanged. -/
def AsyncCore.drop (c : AsyncCore) : AsyncCore :=
  match c.get_sender with
  | .error _ => c
  | .ok (sid, c1) =>
      let c2 := c1.sendBlocking sid .finish
      if c2.joinPoisoned then c2
      else
        match c2.joinHandle with
        | none => c2
        | some _ => { c2 with joinHandle := none, workerJoined := true }

/-- The worker loop body (src/lib.rs 205-223): receive messages in FIFO
order, replay each `Record` into the downstream drain, return on
`Finish`. `workerProcess q` is the sequence of records the sink observes
when the worker consumes the buffer `q`. -/
def workerProcess : List AsyncMsg → List AsyncRecord
  | [] => []
  | .finish :: _ => []
  | .record r :: rest => r :: workerProcess rest

/-- `Async` (src/lib.rs 382-385): the Offload Facade — the core plus the
atomic drop counter. -/
structure Async where
  core : AsyncCore
  dropped : Nat
deriving DecidableEq, Repr

/-- `AsyncBuilder` (src/lib.rs 343-347). -/
structure AsyncBuilder where
  core : AsyncCoreBuilder
deriving DecidableEq, Repr

/-- `AsyncBuilder::new` (src/lib.rs 352-354). -/
def AsyncBuilder.new : AsyncBuilder :=
  { core := AsyncCoreBuilder.new }

/-- `AsyncBuilder::chan_size` (src/lib.rs 358-360). -/
def AsyncBuilder.set_chan_size (b : AsyncBuilder) (s : Nat) : AsyncBuilder :=
  { core := b.core.set_chan_size s }

/-- `AsyncBuilder::build` (src/lib.rs 363-368): drop counter starts at
zero. -/
def AsyncBuilder.build (b : AsyncBuilder) : Async :=
  { core := b.core.build, dropped := 0 }

/-- The location the `record!` macro invocation inside `push_dropped`
stamps on the synthetic record (src/lib.rs 409). -/
def pushDroppedLocation : RecordLocation :=
  { file := "src/lib.rs", line := 409 }

/-- The synthetic record built by `push_dropped` (src/lib.rs 409-414):
level `Error`, tag `slog-async`, the overflow message, and the single
call-site pair `"count" => dropped` (a `usize`). -/
def dropReportRecord (dropped : Nat) : Record :=
  { msg := "dropped messages due to channel overflow",
    level := .error,
    location := pushDroppedLocation,
    tag := "slog-async",
    kvPairs := [("count", .iUsize dropped)] }

/-- `Async::push_dropped` (src/lib.rs 406-425): swap the drop counter to
zero reading `n`; if `n > 0`, log the synthetic report through the core;
on `Full`, add `n + 1` back to the counter and return `Ok`; any other
error propagates. -/
def Async.push_dropped (a : Async) (logger_values : OwnedKVList) :
    Except AsyncError Unit × Async :=
  let n := a.dropped
  let a1 : Async := { a with dropped := 0 }
  if 0 < n then
    match a1.core.log (dropReportRecord n) logger_values with
    | (.ok _, c2) => (.ok (), { a1 with core := c2 })
    | (.error AsyncError.Full, c2) =>
        (.ok (), { a1 with core := c2, dropped := a1.dropped + (n + 1) })
    | (.error e, c2) => (.error e, { a1 with core := c2 })
  else (.ok (), a1)

/-- `impl Drain for Async`, `log` (src/lib.rs 433-450): flush the drop
counter (`?` propagates a fatal error), then log the caller's record
through the core; on `Full`, increment the drop counter and return `Ok`;
any other error propagates. -/
def Async.log (a : Async) (r : Record) (logger_values : OwnedKVList) :
    Except AsyncError Unit × Async :=
  match a.push_dropped logger_values with
  | (.error e, a1) => (.error e, a1)
  | (.ok _, a1) =>
      match a1.core.log r logger_values with
      | (.ok _, c2) => (.ok (), { a1 with core := c2 })
      | (.error AsyncError.Full, c2) =>
          (.ok (), { a1 with core := c2, dropped := a1.dropped + 1 })
      | (.error e, c2) => (.error e, { a1 with core := c2 })

/-- Logging a list of records through `AsyncCore::log` one after another
(one producer thread, worker making no progress), collecting the
per-record results in order. -/
def AsyncCore.logAll (c : AsyncCore) (lv : OwnedKVList) :
    List Record → AsyncCore × List (Except AsyncError Unit)
  | [] => (c, [])
  | r :: rs =>
      let (res, c1) := c.log r lv
      let (c2, ress) := c1.logAll lv rs
      (c2, res :: ress)

/-- Logging a list of records through the Facade (`Async::log`) one after
another, collecting the per-record results in order. -/
def Async.logAll (a : Async) (lv : OwnedKVList) :
    List Record → Async × List (Except AsyncError Unit)
  | [] => (a, [])
  | r :: rs =>
      let (res, a1) := a.log r lv
      let (a2, ress) := a1.logAll lv rs
      (a2, res :: ress)

/-! ## Concrete states used by witnesses and counterexamples -/

/-- A sample caller record. -/
def sampleRecord : Record :=
  { msg := "hello",
    level := .info,
    location := { file := "app.rs", line := 7 },
    tag := "",
    kvPairs := [("k", .iU32 5)] }

/-- The sample record materialized with an empty logger chain. -/
def sampleSnapshot : AsyncRecord :=
  sampleRecord.toAsyncRecord []

/-- A core whose queue (capacity 1) is full, with a cached sender of
identity 1; the worker makes no progress. -/
def fullCore1 : AsyncCore :=
  { chan := { capacity := 1, queue := [.record sampleSnapshot], disconnected := false },
    canonicalId := 0,
    refPoisoned := false,
    tlSender := some 1,
    nextId := 2,
    joinPoisoned := false,
    joinHandle := some (),
    workerSpawned := true,
    workerJoined := false,
    sendLog := [(1, .record sampleSnapshot)] }

/-- A core whose worker thread has terminated abnormally: the receiving
side of the queue is gone, while the queue itself is empty (far from
full). -/
def deadCore : AsyncCore :=
  { chan := { capacity := 128, queue := [], disconnected := true },
    canonicalId := 0,
    refPoisoned := false,
    tlSender := some 1,
    nextId := 2,
    joinPoisoned := false,
    joinHandle := some (),
    workerSpawned := true,
    workerJoined := false,
    sendLog := [] }

/-- A live core on a thread that already cached sender clone 7 (the
canonical handle has identity 0), about to be disposed. -/
def cachedCore7 : AsyncCore :=
  { chan := { capacity := 8, queue := [], disconnected := false },
    canonicalId := 0,
    refPoisoned := false,
    tlSender := some 7,
    nextId := 8,
    joinPoisoned := false,
    joinHandle := some (),
    workerSpawned := true,
    workerJoined := false,
    sendLog := [] }

/-- A core with spare capacity and a cached sender, carrying one queued
record; used by the ordering witness. -/
def roomyCore : AsyncCore :=
  { chan := { capacity := 8, queue := [.record sampleSnapshot], disconnected := false },
    canonicalId := 0,
    refPoisoned := false,
    tlSender := some 1,
    nextId := 2,
    joinPoisoned := false,
    joinHandle := some (),
    workerSpawned := true,
    workerJoined := false,
    sendLog := [(1, .record sampleSnapshot)] }

/-! ## Helper lemmas -/

theorem emitInput_fst (s : ToSendSerializer) (key : Key) (i : SerInput) :
    (s.emitInput key i).1.kv = (key, ownValue i) :: s.kv := by
  cases i <;> rfl

theorem emitInput_snd (s : ToSendSerializer) (key : Key) (i : SerInput) :
    (s.emitInput key i).2 = Except.ok () := by
  cases i <;> rfl

theorem serializePairs_go (ps : List (Key × SerInput)) :
    ∀ s : ToSendSerializer,
      (ps.foldl (fun s p => (s.emitInput p.1 p.2).1) s).kv
        = (ps.map (fun p => (p.1, ownValue p.2))).reverse ++ s.kv := by
  induction ps with
  | nil => intro s; simp
  | cons p ps ih =>
      intro s
      simp [List.foldl_cons, ih, emitInput_fst]

theorem AsyncCore.get_sender_ok (c : AsyncCore) (hp : c.refPoisoned = false) :
    ∃ sid c1, c.get_sender = Except.ok (sid, c1) ∧ c1.chan = c.chan ∧
      c1.refPoisoned = false ∧ c1.tlSender = some sid ∧
      c1.joinPoisoned = c.joinPoisoned ∧ c1.joinHandle = c.joinHandle ∧
      c1.sendLog = c.sendLog := by
  cases htl : c.tlSender with
  | some id =>
      exact ⟨id, c, by simp [AsyncCore.get_sender, htl], rfl, hp, htl, rfl, rfl, rfl⟩
  | none =>
      refine ⟨c.nextId, { c with tlSender := some c.nextId, nextId := c.nextId + 1 },
        by simp [AsyncCore.get_sender, htl, hp], rfl, hp, rfl, rfl, rfl, rfl⟩

theorem AsyncCore.send_ok (c : AsyncCore) (r : AsyncRecord)
    (hp : c.refPoisoned = false) (hd : c.chan.disconnected = false)
    (hlt : c.chan.queue.length < c.chan.capacity) :
    (c.send r).1 = Except.ok () ∧
    (c.send r).2.chan.queue = c.chan.queue ++ [AsyncMsg.record r] ∧
    (c.send r).2.chan.capacity = c.chan.capacity ∧
    (c.send r).2.chan.disconnected = false ∧
    (c.send r).2.refPoisoned = false := by
  obtain ⟨sid, c1, hg, hchan, hp1, htl, _, _, _⟩ := AsyncCore.get_sender_ok c hp
  have hns : ¬ c.chan.capacity ≤ c.chan.queue.length := Nat.not_le.mpr hlt
  simp [AsyncCore.send, hg, ChanState.try_send, hchan, hd, hns, hp1]

theorem AsyncCore.send_full (c : AsyncCore) (r : AsyncRecord)
    (hp : c.refPoisoned = false) (hd : c.chan.disconnected = false)
    (hge : c.chan.capacity ≤ c.chan.queue.length) :
    (c.send r).1 = Except.error AsyncError.Full ∧
    (c.send r).2.chan = c.chan ∧
    (c.send r).2.refPoisoned = false := by
  obtain ⟨sid, c1, hg, hchan, hp1, htl, _, _, _⟩ := AsyncCore.get_sender_ok c hp
  simp [AsyncCore.send, hg, ChanState.try_send, hchan, hd, hge,
    AsyncError.fromTrySendError, hp1]

theorem AsyncCore.log_ok (c : AsyncCore) (r : Record) (lv : OwnedKVList)
    (hp : c.refPoisoned = false) (hd : c.chan.disconnected = false)
    (hlt : c.chan.queue.length < c.chan.capacity) :
    (c.log r lv).1 = Except.ok () ∧
    (c.log r lv).2.chan.queue = c.chan.queue ++ [AsyncMsg.record (r.toAsyncRecord lv)] ∧
    (c.log r lv).2.chan.capacity = c.chan.capacity ∧
    (c.log r lv).2.chan.disconnected = false ∧
    (c.log r lv).2.refPoisoned = false :=
  AsyncCore.send_ok c (r.toAsyncRecord lv) hp hd hlt

theorem AsyncCore.log_full (c : AsyncCore) (r : Record) (lv : OwnedKVList)
    (hp : c.refPoisoned = false) (hd : c.chan.disconnected = false)
    (hge : c.chan.capacity ≤ c.chan.queue.length) :
    (c.log r lv).1 = Except.error AsyncError.Full ∧
    (c.log r lv).2.chan = c.chan ∧
    (c.log r lv).2.refPoisoned = false :=
  AsyncCore.send_full c (r.toAsyncRecord lv) hp hd hge

theorem Async.push_dropped_zero (a : Async) (lv : OwnedKVList) (h0 : a.dropped = 0) :
    a.push_dropped lv = (Except.ok (), { a with dropped := 0 }) := by
  simp [Async.push_dropped, h0]

theorem Async.push_dropped_pos_ok (a : Async) (lv : OwnedKVList) (u : Unit) (c2 : AsyncCore)
    (hn : 0 < a.dropped)
    (hlog : a.core.log (dropReportRecord a.dropped) lv = (Except.ok u, c2)) :
    a.push_dropped lv = (Except.ok (), { core := c2, dropped := 0 }) := by
  simp [Async.push_dropped, hn, hlog]

theorem Async.push_dropped_pos_full (a : Async) (lv : OwnedKVList) (c2 : AsyncCore)
    (hn : 0 < a.dropped)
    (hlog : a.core.log (dropReportRecord a.dropped) lv = (Except.error AsyncError.Full, c2)) :
    a.push_dropped lv = (Except.ok (), { core := c2, dropped := a.dropped + 1 }) := by
  simp [Async.push_dropped, hn, hlog]

theorem Async.push_dropped_pos_fatal (a : Async) (lv : OwnedKVList) (m : String) (c2 : AsyncCore)
    (hn : 0 < a.dropped)
    (hlog : a.core.log (dropReportRecord a.dropped) lv
      = (Except.error (AsyncError.Fatal m), c2)) :
    a.push_dropped lv = (Except.error (AsyncError.Fatal m), { core := c2, dropped := 0 }) := by
  simp [Async.push_dropped, hn, hlog]

theorem Async.push_dropped_err_fatal (a : Async) (lv : OwnedKVList) (e : AsyncError)
    (a1 : Async) (h : a.push_dropped lv = (Except.error e, a1)) :
    ∃ m, e = AsyncError.Fatal m := by
  by_cases hn : 0 < a.dropped
  · rcases hlog : a.core.log (dropReportRecord a.dropped) lv with ⟨res, c2⟩
    cases res with
    | ok u =>
        rw [Async.push_dropped_pos_ok a lv u c2 hn hlog] at h
        simp at h
    | error e2 =>
        cases e2 with
        | Full =>
            rw [Async.push_dropped_pos_full a lv c2 hn hlog] at h
            simp at h
        | Fatal m =>
            rw [Async.push_dropped_pos_fatal a lv m c2 hn hlog] at h
            simp only [Prod.mk.injEq, Except.error.injEq] at h
            exact ⟨m, h.1.symm⟩
  · rw [Async.push_dropped_zero a lv (Nat.eq_zero_of_not_pos hn)] at h
    simp at h

theorem Async.log_unfold_pd_err (a : Async) (r : Record) (lv : OwnedKVList)
    (e : AsyncError) (a1 : Async)
    (hpd : a.push_dropped lv = (Except.error e, a1)) :
    a.log r lv = (Except.error e, a1) := by
  simp [Async.log, hpd]

theorem Async.log_unfold_ok (a : Async) (r : Record) (lv : OwnedKVList)
    (a1 : Async) (u : Unit) (c2 : AsyncCore)
    (hpd : a.push_dropped lv = (Except.ok (), a1))
    (hlog : a1.core.log r lv = (Except.ok u, c2)) :
    a.log r lv = (Except.ok (), { core := c2, dropped := a1.dropped }) := by
  simp [Async.log, hpd, hlog]

theorem Async.log_unfold_full (a : Async) (r : Record) (lv : OwnedKVList)
    (a1 : Async) (c2 : AsyncCore)
    (hpd : a.push_dropped lv = (Except.ok (), a1))
    (hlog : a1.core.log r lv = (Except.error AsyncError.Full, c2)) :
    a.log r lv = (Except.ok (), { core := c2, dropped := a1.dropped + 1 }) := by
  simp [Async.log, hpd, hlog]

theorem Async.log_unfold_fatal (a : Async) (r : Record) (lv : OwnedKVList)
    (a1 : Async) (m : String) (c2 : AsyncCore)
    (hpd : a.push_dropped lv = (Except.ok (), a1))
    (hlog : a1.core.log r lv = (Except.error (AsyncError.Fatal m), c2)) :
    a.log r lv = (Except.error (AsyncError.Fatal m), { core := c2, dropped := a1.dropped }) := by
  simp [Async.log, hpd, hlog]

theorem workerProcess_append_record (q : List AsyncMsg) (r : AsyncRecord)
    (h : AsyncMsg.finish ∉ q) :
    workerProcess (q ++ [AsyncMsg.record r]) = workerProcess q ++ [r] := by
  induction q with
  | nil => rfl
  | cons m q ih =>
      cases m with
      | finish => exact absurd (List.mem_cons_self _ _) h
      | record x =>
          have h2 : AsyncMsg.finish ∉ q := fun hm => h (List.mem_cons_of_mem _ hm)
          calc workerProcess ((AsyncMsg.record x :: q) ++ [AsyncMsg.record r])
              = x :: workerProcess (q ++ [AsyncMsg.record r]) := rfl
            _ = x :: (workerProcess q ++ [r]) := by rw [ih h2]
            _ = workerProcess (AsyncMsg.record x :: q) ++ [r] := rfl

/-! ## Claims -/

/-- C6: every emit operation of `ToSendSerializer` succeeds (returns
`Ok(())`) and prepends the pair `(key, ownValue i)` to the owned chain;
primitive numeric, boolean and character inputs are copied by value,
borrowed strings and formatted arguments are rendered into an owned text
buffer, and an absent value is stored as the distinct owned marker
`vNone`, which is not a text buffer. -/
theorem c6_materializer_owned_conversion (s : ToSendSerializer) (key : Key) (i : SerInput) :
    (s.emitInput key i).2 = Except.ok () ∧
    (s.emitInput key i).1.kv = (key, ownValue i) :: s.kv ∧
    (∀ b, ownValue (.iBool b) = .vBool b) ∧
    (∀ c, ownValue (.iChar c) = .vChar c) ∧
    (∀ n, ownValue (.iU8 n) = .vU8 n) ∧
    (∀ n, ownValue (.iI8 n) = .vI8 n) ∧
    (∀ n, ownValue (.iU16 n) = .vU16 n) ∧
    (∀ n, ownValue (.iI16 n) = .vI16 n) ∧
    (∀ n, ownValue (.iU32 n) = .vU32 n) ∧
    (∀ n, ownValue (.iI32 n) = .vI32 n) ∧
    (∀ n, ownValue (.iU64 n) = .vU64 n) ∧
    (∀ n, ownValue (.iI64 n) = .vI64 n) ∧
    (∀ b, ownValue (.iF32 b) = .vF32 b) ∧
    (∀ b, ownValue (.iF64 b) = .vF64 b) ∧
    (∀ n, ownValue (.iUsize n) = .vUsize n) ∧
    (∀ n, ownValue (.iIsize n) = .vIsize n) ∧
    (∀ t, ownValue (.iStr t) = .vStr t) ∧
    (∀ t, (ownValue (.iStr t)).isText = true) ∧
    (∀ t, ownValue (.iArguments t) = .vStr t) ∧
    ownValue .iNone = .vNone ∧
    (ownValue .iNone).isText = false :=
  ⟨emitInput_snd s key i, emitInput_fst s key i,
   fun _ => rfl, fun _ => rfl, fun _ => rfl, fun _ => rfl, fun _ => rfl,
   fun _ => rfl, fun _ => rfl, fun _ => rfl, fun _ => rfl, fun _ => rfl,
   fun _ => rfl, fun _ => rfl, fun _ => rfl, fun _ => rfl, fun _ => rfl,
   fun _ => rfl, fun _ => rfl, rfl, rfl⟩

/-- C10: serializing pairs `p1, ..., pk` in emission order and finishing
yields exactly those pairs, owned, with the last-emitted pair at the head
— the reverse of emission order. -/
theorem c10_chain_reverse_emission_order (pairs : List (Key × SerInput)) :
    (serializePairs pairs).finish
      = (pairs.map (fun p => (p.1, ownValue p.2))).reverse := by
  simpa [serializePairs, ToSendSerializer.finish, ToSendSerializer.new]
    using serializePairs_go pairs ToSendSerializer.new

/-- C4 counterexample: a requested capacity of 0 (the only value below 1)
is not rejected — `build` constructs a working core with capacity 0 and
the worker spawned. -/
theorem c4_cex_capacity_zero_accepted :
    ((AsyncCoreBuilder.new.set_chan_size 0).build).chan.capacity = 0 ∧
    ((AsyncCoreBuilder.new.set_chan_size 0).build).workerSpawned = true :=
  ⟨rfl, rfl⟩

/-- C4 (amended): construction spawns the worker immediately and uses
capacity 128 when none is specified; the requested capacity is stored
unvalidated, whatever it is. -/
theorem c4_build_spawns_and_defaults (s : Nat) :
    AsyncCoreBuilder.new.chan_size = 128 ∧
    (AsyncCoreBuilder.new.build).chan.capacity = 128 ∧
    (AsyncCoreBuilder.new.build).workerSpawned = true ∧
    ((AsyncCoreBuilder.new.set_chan_size s).build).chan.capacity = s ∧
    ((AsyncCoreBuilder.new.set_chan_size s).build).workerSpawned = true :=
  ⟨rfl, rfl, rfl, rfl, rfl⟩

/-- C3: with the worker thread dead (receiver gone) and the queue far
from full, `AsyncCore::send` reports `Full`, not `Fatal` — the
`From<TrySendError>` conversion discards the `Disconnected`/`Full`
distinction, contradicting the claim (and `Full`'s own doc comment). -/
theorem c3_worker_dead_reported_as_full :
    deadCore.chan.disconnected = true ∧
    deadCore.chan.queue.length < deadCore.chan.capacity ∧
    (deadCore.send sampleSnapshot).1 = Except.error AsyncError.Full ∧
    AsyncError.fromTrySendError TrySendError.disconnected = AsyncError.Full ∧
    AsyncError.fromTrySendError TrySendError.full = AsyncError.Full :=
  ⟨rfl, by decide, rfl, rfl, rfl⟩

/-- C1: a Facade `log` call returns an error only when a `Fatal`
condition occurred — `Full` is never surfaced — and whenever the core
enqueue of the caller's record fails with `Full` (after a clean drop
flush), the call returns success and the drop counter grows by exactly
one. -/
theorem c1_facade_absorbs_full (a : Async) (r : Record) (lv : OwnedKVList) :
    (∀ e, (a.log r lv).1 = Except.error e → ∃ m, e = AsyncError.Fatal m) ∧
    (∀ a1, a.push_dropped lv = (Except.ok (), a1) →
      ∀ c2, a1.core.log r lv = (Except.error AsyncError.Full, c2) →
        a.log r lv = (Except.ok (), { core := c2, dropped := a1.dropped + 1 })) := by
  constructor
  · intro e he
    rcases hpd : a.push_dropped lv with ⟨pres, a1⟩
    cases pres with
    | error e2 =>
        rw [Async.log_unfold_pd_err a r lv e2 a1 hpd] at he
        obtain ⟨m, hm⟩ := Async.push_dropped_err_fatal a lv e2 a1 hpd
        simp only [Except.error.injEq] at he
        exact ⟨m, by rw [← he, hm]⟩
    | ok u =>
        cases u
        rcases hcl : a1.core.log r lv with ⟨cres, c2⟩
        cases cres with
        | ok v =>
            rw [Async.log_unfold_ok a r lv a1 v c2 hpd hcl] at he
            simp at he
        | error e2 =>
            cases e2 with
            | Full =>
                rw [Async.log_unfold_full a r lv a1 c2 hpd hcl] at he
                simp at he
            | Fatal m =>
                rw [Async.log_unfold_fatal a r lv a1 m c2 hpd hcl] at he
                simp only [Except.error.injEq] at he
                exact ⟨m, he.symm⟩
  · intro a1 hpd c2 hcl
    exact Async.log_unfold_full a r lv a1 c2 hpd hcl

/-- C1 witness: a concrete facade over a full capacity-1 queue absorbs
the `Full` of the caller's enqueue, returning success with the drop
counter at 1. -/
theorem c1_facade_absorbs_full_witness :
    Async.log { core := fullCore1, dropped := 0 } sampleRecord []
      = (Except.ok (), { core := fullCore1, dropped := 1 }) :=
  (c1_facade_absorbs_full { core := fullCore1, dropped := 0 } sampleRecord []).2
    { core := fullCore1, dropped := 0 } rfl fullCore1 rfl

/-- C2: `push_dropped` swaps the drop counter to zero reading `n`; when
`n > 0` it enqueues the synthetic drop report — on success the counter
stays 0, and if the synthetic enqueue fails with `Full` then exactly
`n + 1` is added back while the surrounding `log` call still proceeds to
attempt the caller's own event through the core. -/
theorem c2_flush_readds_and_proceeds (a : Async) (r : Record) (lv : OwnedKVList)
    (hn : 0 < a.dropped) :
    (∀ u c2, a.core.log (dropReportRecord a.dropped) lv = (Except.ok u, c2) →
        a.push_dropped lv = (Except.ok (), { core := c2, dropped := 0 })) ∧
    (∀ c2, a.core.log (dropReportRecord a.dropped) lv = (Except.error AsyncError.Full, c2) →
        a.push_dropped lv = (Except.ok (), { core := c2, dropped := a.dropped + 1 }) ∧
        a.log r lv =
          (match c2.log r lv with
           | (Except.ok _, c3) => (Except.ok (), { core := c3, dropped := a.dropped + 1 })
           | (Except.error AsyncError.Full, c3) =>
               (Except.ok (), { core := c3, dropped := a.dropped + 1 + 1 })
           | (Except.error e, c3) => (Except.error e, { core := c3, dropped := a.dropped + 1 }))) := by
  constructor
  · intro u c2 hlog
    exact Async.push_dropped_pos_ok a lv u c2 hn hlog
  · intro c2 hlog
    have hpd := Async.push_dropped_pos_full a lv c2 hn hlog
    refine ⟨hpd, ?_⟩
    rcases hcl : c2.log r lv with ⟨cres, c3⟩
    cases cres with
    | ok v =>
        rw [Async.log_unfold_ok a r lv { core := c2, dropped := a.dropped + 1 } v c3 hpd hcl]
    | error e2 =>
        cases e2 with
        | Full =>
            rw [Async.log_unfold_full a r lv { core := c2, dropped := a.dropped + 1 } c3 hpd hcl]
        | Fatal m =>
            rw [Async.log_unfold_fatal a r lv { core := c2, dropped := a.dropped + 1 } m c3 hpd hcl]

/-- C2 witness: with one counted drop and the capacity-1 queue still
full, the synthetic report itself hits `Full`: the counter becomes
`1 + 1 = 2`, the call returns success, and the caller's own enqueue was
still attempted (also `Full`, leaving the counter at 3). -/
theorem c2_flush_readds_and_proceeds_witness :
    Async.push_dropped { core := fullCore1, dropped := 1 } []
      = (Except.ok (), { core := fullCore1, dropped := 2 }) ∧
    Async.log { core := fullCore1, dropped := 1 } sampleRecord []
      = (Except.ok (), { core := fullCore1, dropped := 3 }) := by
  have h := (c2_flush_readds_and_proceeds { core := fullCore1, dropped := 1 }
    sampleRecord [] (by decide)).2 fullCore1 rfl
  exact ⟨h.1, h.2.trans rfl⟩

theorem AsyncCore.logAll_cons (c : AsyncCore) (lv : OwnedKVList) (r : Record)
    (rs : List Record) :
    c.logAll lv (r :: rs)
      = (((c.log r lv).2.logAll lv rs).1,
         (c.log r lv).1 :: ((c.log r lv).2.logAll lv rs).2) := by
  rcases heq : c.log r lv with ⟨res, c1⟩
  simp [AsyncCore.logAll, heq]

theorem AsyncCore.logAll_ok (lv : OwnedKVList) (rs : List Record) :
    ∀ c : AsyncCore, c.refPoisoned = false → c.chan.disconnected = false →
      c.chan.queue.length + rs.length ≤ c.chan.capacity →
      (c.logAll lv rs).2 = List.replicate rs.length (Except.ok ()) ∧
      (c.logAll lv rs).1.chan.queue
        = c.chan.queue ++ rs.map (fun r => AsyncMsg.record (r.toAsyncRecord lv)) ∧
      (c.logAll lv rs).1.chan.capacity = c.chan.capacity ∧
      (c.logAll lv rs).1.chan.disconnected = false ∧
      (c.logAll lv rs).1.refPoisoned = false := by
  induction rs with
  | nil =>
      intro c hp hd _
      simp [AsyncCore.logAll, hp, hd]
  | cons r rs ih =>
      intro c hp hd hcap
      have hlt : c.chan.queue.length < c.chan.capacity := by
        simp only [List.length_cons] at hcap
        omega
      obtain ⟨hres, hq, hcapeq, hd1, hp1⟩ := AsyncCore.log_ok c r lv hp hd hlt
      have hcap2 : (c.log r lv).2.chan.queue.length + rs.length
          ≤ (c.log r lv).2.chan.capacity := by
        rw [hq, hcapeq]
        simp only [List.length_append, List.length_cons, List.length_nil,
          List.length_cons] at hcap ⊢
        omega
      obtain ⟨ihres, ihq, ihcap, ihd, ihp⟩ := ih (c.log r lv).2 hp1 hd1 hcap2
      rw [AsyncCore.logAll_cons]
      refine ⟨?_, ?_, ?_, ihd, ihp⟩
      · simp [ihres, hres, List.replicate_succ]
      · rw [ihq, hq]
        simp
      · rw [ihcap, hcapeq]

theorem AsyncCore.logAll_append (lv : OwnedKVList) (xs ys : List Record) :
    ∀ c : AsyncCore,
      (c.logAll lv (xs ++ ys)).2
        = (c.logAll lv xs).2 ++ ((c.logAll lv xs).1.logAll lv ys).2 ∧
      (c.logAll lv (xs ++ ys)).1 = ((c.logAll lv xs).1.logAll lv ys).1 := by
  induction xs with
  | nil => intro c; simp [AsyncCore.logAll]
  | cons x xs ih =>
      intro c
      rw [List.cons_append, AsyncCore.logAll_cons, AsyncCore.logAll_cons]
      obtain ⟨h1, h2⟩ := ih (c.log x lv).2
      rw [h1, h2]
      simp

theorem AsyncCore.logAll_single_full (c : AsyncCore) (lv : OwnedKVList) (r : Record)
    (hp : c.refPoisoned = false) (hd : c.chan.disconnected = false)
    (hge : c.chan.capacity ≤ c.chan.queue.length) :
    (c.logAll lv [r]).2 = [Except.error AsyncError.Full] := by
  have h := (AsyncCore.log_full c r lv hp hd hge).1
  rw [AsyncCore.logAll_cons]
  simp [AsyncCore.logAll, h]

theorem Async.log_zero_ok (a : Async) (r : Record) (lv : OwnedKVList) (u : Unit)
    (c2 : AsyncCore) (h0 : a.dropped = 0)
    (hlog : a.core.log r lv = (Except.ok u, c2)) :
    a.log r lv = (Except.ok (), { core := c2, dropped := 0 }) := by
  have hpd := Async.push_dropped_zero a lv h0
  have h := Async.log_unfold_ok a r lv { a with dropped := 0 } u c2 hpd hlog
  simpa using h

theorem Async.log_zero_full (a : Async) (r : Record) (lv : OwnedKVList)
    (c2 : AsyncCore) (h0 : a.dropped = 0)
    (hlog : a.core.log r lv = (Except.error AsyncError.Full, c2)) :
    a.log r lv = (Except.ok (), { core := c2, dropped := 1 }) := by
  have hpd := Async.push_dropped_zero a lv h0
  have h := Async.log_unfold_full a r lv { a with dropped := 0 } c2 hpd hlog
  simpa using h

theorem Async.logAllCons (a : Async) (lv : OwnedKVList) (r : Record)
    (rs : List Record) :
    a.logAll lv (r :: rs)
      = (((a.log r lv).2.logAll lv rs).1,
         (a.log r lv).1 :: ((a.log r lv).2.logAll lv rs).2) := by
  rcases heq : a.log r lv with ⟨res, a1⟩
  simp [Async.logAll, heq]

theorem Async.logAllOk (lv : OwnedKVList) (rs : List Record) :
    ∀ a : Async, a.dropped = 0 → a.core.refPoisoned = false →
      a.core.chan.disconnected = false →
      a.core.chan.queue.length + rs.length ≤ a.core.chan.capacity →
      (a.logAll lv rs).2 = List.replicate rs.length (Except.ok ()) ∧
      (a.logAll lv rs).1.dropped = 0 ∧
      (a.logAll lv rs).1.core.chan.queue
        = a.core.chan.queue ++ rs.map (fun r => AsyncMsg.record (r.toAsyncRecord lv)) ∧
      (a.logAll lv rs).1.core.chan.capacity = a.core.chan.capacity ∧
      (a.logAll lv rs).1.core.chan.disconnected = false ∧
      (a.logAll lv rs).1.core.refPoisoned = false := by
  induction rs with
  | nil =>
      intro a h0 hp hd _
      simp [Async.logAll, h0, hp, hd]
  | cons r rs ih =>
      intro a h0 hp hd hcap
      have hlt : a.core.chan.queue.length < a.core.chan.capacity := by
        simp only [List.length_cons] at hcap
        omega
      obtain ⟨hres, hq, hcapeq, hd1, hp1⟩ := AsyncCore.log_ok a.core r lv hp hd hlt
      rcases heq : a.core.log r lv with ⟨res, c2⟩
      rw [heq] at hres hq hcapeq hd1 hp1
      dsimp only at hres hq hcapeq hd1 hp1
      have hres2 : res = Except.ok () := hres
      subst hres2
      have hl := Async.log_zero_ok a r lv () c2 h0 heq
      have hcap2 : c2.chan.queue.length + rs.length ≤ c2.chan.capacity := by
        rw [hq, hcapeq]
        simp only [List.length_append, List.length_cons, List.length_nil,
          List.length_cons] at hcap ⊢
        omega
      obtain ⟨ihres, ihdrop, ihq, ihcap, ihd, ihp⟩ :=
        ih { core := c2, dropped := 0 } rfl hp1 hd1 hcap2
      rw [Async.logAllCons, hl]
      refine ⟨?_, ihdrop, ?_, ?_, ihd, ihp⟩
      · simp [ihres, List.replicate_succ]
      · rw [ihq]
        dsimp only
        rw [hq]
        simp
      · rw [ihcap]
        dsimp only
        rw [hcapeq]

theorem Async.logAllAppend (lv : OwnedKVList) (xs ys : List Record) :
    ∀ a : Async,
      (a.logAll lv (xs ++ ys)).2
        = (a.logAll lv xs).2 ++ ((a.logAll lv xs).1.logAll lv ys).2 ∧
      (a.logAll lv (xs ++ ys)).1 = ((a.logAll lv xs).1.logAll lv ys).1 := by
  induction xs with
  | nil => intro a; simp [Async.logAll]
  | cons x xs ih =>
      intro a
      rw [List.cons_append, Async.logAllCons, Async.logAllCons]
      obtain ⟨h1, h2⟩ := ih (a.log x lv).2
      rw [h1, h2]
      simp

theorem Async.logAllSingleFull (a : Async) (lv : OwnedKVList) (r : Record)
    (h0 : a.dropped = 0) (hp : a.core.refPoisoned = false)
    (hd : a.core.chan.disconnected = false)
    (hge : a.core.chan.capacity ≤ a.core.chan.queue.length) :
    (a.logAll lv [r]).2 = [Except.ok ()] ∧
    (a.logAll lv [r]).1.dropped = 1 := by
  have h := (AsyncCore.log_full a.core r lv hp hd hge).1
  rcases heq : a.core.log r lv with ⟨res, c2⟩
  rw [heq] at h
  have hres : res = Except.error AsyncError.Full := h
  subst hres
  have hl := Async.log_zero_full a r lv c2 h0 heq
  rw [Async.logAllCons, hl]
  simp [Async.logAll]

/-- C5 counterexample: disposing a core on a thread that cached sender
clone 7 sends `Finish` on that cached handle — the canonical handle
(identity 0) carries nothing, so the Shutdown send does not bypass the
per-thread cache. -/
theorem c5_cex_shutdown_on_cached_handle :
    cachedCore7.drop.sendLog = [(7, AsyncMsg.finish)] ∧
    (cachedCore7.drop.sendLog.map Prod.fst).contains cachedCore7.canonicalId = false := by
  decide

/-- C5 (amended): on disposal the Shutdown message is sent through the
same `get_sender` path ordinary sends use — the per-thread cached handle
when one exists, otherwise a fresh clone of the canonical handle made
under the lock — and the disposing thread then takes the join handle and
joins the Worker thread. -/
theorem c5_drop_sends_finish_and_joins (c : AsyncCore) (sid : Nat) (c1 : AsyncCore)
    (hg : c.get_sender = Except.ok (sid, c1))
    (hd : c1.chan.disconnected = false)
    (hjp : c1.joinPoisoned = false)
    (hjh : c1.joinHandle = some ()) :
    c.drop = { c1 with
               chan := { c1.chan with queue := c1.chan.queue ++ [AsyncMsg.finish] },
               sendLog := c1.sendLog ++ [(sid, AsyncMsg.finish)],
               joinHandle := none,
               workerJoined := true } ∧
    (c.tlSender = some sid ∨
      (c.tlSender = none ∧ sid = c.nextId ∧ c.refPoisoned = false)) := by
  constructor
  · simp [AsyncCore.drop, hg, AsyncCore.sendBlocking, hd, hjp, hjh]
  · cases htl : c.tlSender with
    | some id =>
        left
        rw [AsyncCore.get_sender, htl] at hg
        simp only [Except.ok.injEq, Prod.mk.injEq] at hg
        rw [hg.1]
    | none =>
        right
        cases hrp : c.refPoisoned with
        | true => rw [AsyncCore.get_sender, htl] at hg; simp [hrp] at hg
        | false =>
            rw [AsyncCore.get_sender, htl] at hg
            simp only [hrp, Bool.false_eq_true, if_false, Except.ok.injEq,
              Prod.mk.injEq] at hg
            exact ⟨rfl, hg.1.symm, rfl⟩

/-- C5 witness: disposing the concrete core with cached clone 7 appends
`Finish` to the queue via handle 7 and joins the worker. -/
theorem c5_drop_sends_finish_and_joins_witness :
    cachedCore7.drop.workerJoined = true ∧
    cachedCore7.drop.chan.queue = [AsyncMsg.finish] ∧
    cachedCore7.drop.joinHandle = none := by
  have h := (c5_drop_sends_finish_and_joins cachedCore7 7 cachedCore7 rfl rfl rfl rfl).1
  rw [h]
  exact ⟨rfl, rfl, rfl⟩

/-- C9: record enqueues use the non-blocking `try_send` and fail with
`Full` on a full queue, while disposal delivers the terminal `Finish`
with the blocking `send`: even when the queue has no free capacity, the
Shutdown message is accepted into the queue rather than dropped. -/
theorem c9_shutdown_uses_blocking_send (c : AsyncCore) (r : AsyncRecord)
    (hp : c.refPoisoned = false)
    (hd : c.chan.disconnected = false)
    (hfull : c.chan.capacity ≤ c.chan.queue.length) :
    (c.drop).chan.queue = c.chan.queue ++ [AsyncMsg.finish] ∧
    (c.send r).1 = Except.error AsyncError.Full := by
  obtain ⟨sid, c1, hg, hchan, hp1, htl, hjp, hjh, hsl⟩ := AsyncCore.get_sender_ok c hp
  have hd1 : c1.chan.disconnected = false := by rw [hchan]; exact hd
  constructor
  · simp only [AsyncCore.drop, hg]
    simp only [AsyncCore.sendBlocking, hd1, Bool.false_eq_true, if_false]
    split
    · simp [hchan]
    · split <;> simp [hchan]
  · exact (AsyncCore.send_full c r hp hd hfull).1

/-- C9 witness: on the concrete full capacity-1 core, a record send
fails with `Full` while disposal still appends `Finish` to the queue. -/
theorem c9_shutdown_uses_blocking_send_witness :
    fullCore1.drop.chan.queue = [.record sampleSnapshot, AsyncMsg.finish] ∧
    (fullCore1.send sampleSnapshot).1 = Except.error AsyncError.Full := by
  have h := c9_shutdown_uses_blocking_send fullCore1 sampleSnapshot rfl rfl (by decide)
  exact ⟨h.1.trans rfl, h.2⟩

/-- C7: after a burst leaving `n > 0` counted drops, the next Facade
`log` call with room in the queue enqueues first the synthetic record
reporting `n` and then the caller's record, in that order, so the worker
replays the drop report immediately before the triggering event to the
sink. -/
theorem c7_report_precedes_trigger (a : Async) (r : Record) (lv : OwnedKVList)
    (hn : 0 < a.dropped)
    (hp : a.core.refPoisoned = false)
    (hd : a.core.chan.disconnected = false)
    (hcap : a.core.chan.queue.length + 2 ≤ a.core.chan.capacity)
    (hfin : AsyncMsg.finish ∉ a.core.chan.queue) :
    (a.log r lv).1 = Except.ok () ∧
    (a.log r lv).2.dropped = 0 ∧
    (a.log r lv).2.core.chan.queue
      = a.core.chan.queue
        ++ [AsyncMsg.record ((dropReportRecord a.dropped).toAsyncRecord lv),
            AsyncMsg.record (r.toAsyncRecord lv)] ∧
    workerProcess (a.log r lv).2.core.chan.queue
      = workerProcess a.core.chan.queue
        ++ [(dropReportRecord a.dropped).toAsyncRecord lv, r.toAsyncRecord lv] := by
  have h1 := AsyncCore.log_ok a.core (dropReportRecord a.dropped) lv hp hd (by omega)
  rcases heq1 : a.core.log (dropReportRecord a.dropped) lv with ⟨res1, c2⟩
  rw [heq1] at h1
  obtain ⟨hres1, hq1, hcap1, hd1, hp1⟩ := h1
  have hpd := Async.push_dropped_pos_ok a lv () c2 hn (by rw [heq1, ← hres1])
  have hlen2 : c2.chan.queue.length < c2.chan.capacity := by
    rw [hq1, hcap1]
    simp only [List.length_append, List.length_cons, List.length_nil]
    omega
  have h2 := AsyncCore.log_ok c2 r lv hp1 hd1 hlen2
  rcases heq2 : c2.log r lv with ⟨res2, c3⟩
  rw [heq2] at h2
  obtain ⟨hres2, hq2, hcap2, hd2, hp2⟩ := h2
  have hfinal := Async.log_unfold_ok a r lv { core := c2, dropped := 0 } () c3 hpd
    (by rw [heq2, ← hres2])
  rw [hfinal]
  have hqq : c3.chan.queue
      = a.core.chan.queue
        ++ [AsyncMsg.record ((dropReportRecord a.dropped).toAsyncRecord lv),
            AsyncMsg.record (r.toAsyncRecord lv)] := by
    rw [hq2, hq1]
    simp
  refine ⟨rfl, rfl, hqq, ?_⟩
  have hassoc : a.core.chan.queue
      ++ [AsyncMsg.record ((dropReportRecord a.dropped).toAsyncRecord lv),
          AsyncMsg.record (r.toAsyncRecord lv)]
      = (a.core.chan.queue
          ++ [AsyncMsg.record ((dropReportRecord a.dropped).toAsyncRecord lv)])
        ++ [AsyncMsg.record (r.toAsyncRecord lv)] := by simp
  rw [hqq, hassoc,
    workerProcess_append_record _ _ (by simp [hfin]),
    workerProcess_append_record _ _ hfin]
  simp

/-- C7 witness: a concrete facade with two counted drops and spare
capacity enqueues the count-2 report and then the caller's event, in
that order, behind the already queued record. -/
theorem c7_report_precedes_trigger_witness :
    (Async.log { core := roomyCore, dropped := 2 } sampleRecord []).2.core.chan.queue
      = [AsyncMsg.record sampleSnapshot,
         AsyncMsg.record ((dropReportRecord 2).toAsyncRecord []),
         AsyncMsg.record (sampleRecord.toAsyncRecord [])] := by
  have h := c7_report_precedes_trigger { core := roomyCore, dropped := 2 } sampleRecord []
    (by decide) rfl rfl (by decide) (by decide)
  exact h.2.2.1.trans rfl

/-- C8: with capacity `k ≥ 1` and `k + 1` records sent back-to-back by
one producer while the worker consumes nothing, the first `k` core
enqueues succeed and exactly the `(k+1)`-th fails with `Full`; through
the Facade every call reports success and the burst leaves exactly one
counted drop. -/
theorem c8_burst_exactly_one_drop (k : Nat) (rs : List Record) (lv : OwnedKVList)
    (_hk : 1 ≤ k) (hlen : rs.length = k + 1) :
    ((AsyncCoreBuilder.new.set_chan_size k).build.logAll lv rs).2
      = List.replicate k (Except.ok ()) ++ [Except.error AsyncError.Full] ∧
    ((AsyncBuilder.new.set_chan_size k).build.logAll lv rs).2
      = List.replicate (k + 1) (Except.ok ()) ∧
    ((AsyncBuilder.new.set_chan_size k).build.logAll lv rs).1.dropped = 1 := by
  have hne : rs ≠ [] := by
    intro h
    rw [h] at hlen
    simp at hlen
  obtain ⟨xs, y, hxy⟩ : ∃ xs y, rs = xs ++ [y] :=
    ⟨rs.dropLast, rs.getLast hne, (List.dropLast_append_getLast hne).symm⟩
  subst hxy
  have hxslen : xs.length = k := by
    simp only [List.length_append, List.length_cons, List.length_nil] at hlen
    omega
  obtain ⟨hres1, hq1, hcap1, hd1, hp1⟩ :=
    AsyncCore.logAll_ok lv xs (AsyncCoreBuilder.new.set_chan_size k).build rfl rfl
      (by show 0 + xs.length ≤ k; omega)
  have hge : ((AsyncCoreBuilder.new.set_chan_size k).build.logAll lv xs).1.chan.capacity
      ≤ ((AsyncCoreBuilder.new.set_chan_size k).build.logAll lv xs).1.chan.queue.length := by
    rw [hcap1, hq1]
    simp [AsyncCoreBuilder.build, AsyncCoreBuilder.set_chan_size, AsyncCoreBuilder.new, hxslen]
  have hfull := AsyncCore.logAll_single_full
    ((AsyncCoreBuilder.new.set_chan_size k).build.logAll lv xs).1 lv y hp1 hd1 hge
  obtain ⟨fres1, fdrop, fq1, fcap1, fd1, fp1⟩ :=
    Async.logAllOk lv xs (AsyncBuilder.new.set_chan_size k).build rfl rfl rfl
      (by show 0 + xs.length ≤ k; omega)
  have fge : ((AsyncBuilder.new.set_chan_size k).build.logAll lv xs).1.core.chan.capacity
      ≤ ((AsyncBuilder.new.set_chan_size k).build.logAll lv xs).1.core.chan.queue.length := by
    rw [fcap1, fq1]
    simp [AsyncBuilder.build, AsyncBuilder.set_chan_size, AsyncBuilder.new,
      AsyncCoreBuilder.build, AsyncCoreBuilder.set_chan_size, AsyncCoreBuilder.new, hxslen]
  have ffull := Async.logAllSingleFull
    ((AsyncBuilder.new.set_chan_size k).build.logAll lv xs).1 lv y fdrop fp1 fd1 fge
  refine ⟨?_, ?_, ?_⟩
  · obtain ⟨happ2, happ1⟩ :=
      AsyncCore.logAll_append lv xs [y] (AsyncCoreBuilder.new.set_chan_size k).build
    rw [happ2, hres1, hxslen, hfull]
  · obtain ⟨happ2, happ1⟩ :=
      Async.logAllAppend lv xs [y] (AsyncBuilder.new.set_chan_size k).build
    rw [happ2, fres1, hxslen, ffull.1, ← List.replicate_succ']
  · obtain ⟨happ2, happ1⟩ :=
      Async.logAllAppend lv xs [y] (AsyncBuilder.new.set_chan_size k).build
    rw [happ1, ffull.2]

/-- C8 witness: capacity 2, three records from one producer — the core
reports ok, ok, Full; the Facade reports three successes with the drop
counter at 1. -/
theorem c8_burst_exactly_one_drop_witness :
    ((AsyncCoreBuilder.new.set_chan_size 2).build.logAll []
        [sampleRecord, sampleRecord, sampleRecord]).2
      = [Except.ok (), Except.ok (), Except.error AsyncError.Full] ∧
    ((AsyncBuilder.new.set_chan_size 2).build.logAll []
        [sampleRecord, sampleRecord, sampleRecord]).2
      = [Except.ok (), Except.ok (), Except.ok ()] ∧
    ((AsyncBuilder.new.set_chan_size 2).build.logAll []
        [sampleRecord, sampleRecord, sampleRecord]).1.dropped = 1 := by
  have h := c8_burst_exactly_one_drop 2 [sampleRecord, sampleRecord, sampleRecord] []
    (by decide) rfl
  exact ⟨h.1.trans rfl, h.2.1.trans rfl, h.2.2⟩

end SlogAsync
